import Mathlib

/-!
Verification of the investigation session engine of the
gemini-cloud-assist-mcp repository: resource-path handling, the
observation merge, the polling loop of runInvestigation, input
validation of the tool handlers, and the markdown renderer.

Machine strings are embedded as Lean String values; JS object maps
with insertion order are embedded as association lists.
-/

namespace GeminiCloudAssist

/-! ## Constants (from constants.js) -/

def INITIAL_BACKOFF_SECONDS : Nat := 1
def MAX_BACKOFF_SECONDS : Nat := 32
def BACKOFF_FACTOR : Nat := 2
def MAX_POLLING_ATTEMPTS : Nat := 20

def PRIMARY_USER_OBSERVATION_ID : String := "user.input.text"
def PROJECT_OBSERVATION_ID : String := "user.project"

def OBSERVER_TYPE_USER : String := "OBSERVER_TYPE_USER"

/-! ## Data model -/

/-- Modelled from the spec: a time interval attached to an observation
(utils.js is not among the sources; the shape follows section 3 of the
design and the test fixture in utils.test.js). -/
structure TimeInterval where
  startTime : String
deriving Repr, DecidableEq

/-- Modelled from the spec: an observation record, section 3 of the
design (utils.js is not among the sources). -/
structure Observation where
  id : String
  observationType : String
  observerType : String
  text : String
  relevantResources : List String
  timeIntervals : List TimeInterval
deriving Repr, DecidableEq

/-- Modelled from the spec: a hypothesis produced by the remote
analysis, consumed only by the renderer. -/
structure Hypothesis where
  title : String
  description : String
deriving Repr, DecidableEq

/-- An observations mapping: stable observation id to observation,
in insertion order, embedding the JS object used by the code. -/
abbrev ObsMap := List (String × Observation)

/-- Modelled from the spec: an investigation snapshot, section 3 of the
design. `observations` is `none` when the payload has no observations
property at all (the edge case of utils.test.js). -/
structure Investigation where
  name : String
  title : String
  startTime : Option String
  executionState : String
  observations : Option ObsMap
  hypotheses : List Hypothesis
deriving Repr, DecidableEq

/-- The revision-request envelope produced by the merge: in the source
the merge returns an object of shape `\x7b snapshot \x7d`. -/
structure RevisionPayload where
  snapshot : Investigation
deriving Repr, DecidableEq

/-- The count of observations whose observer type is user, as computed
in utils.test.js via Object.values(...).filter(...).length. -/
def userObsCount (m : ObsMap) : Nat :=
  (m.filter (fun kv => kv.2.observerType == OBSERVER_TYPE_USER)).length

/-! ## RevisionMerger (getRevisionWithNewObservation) -/

/-- Modelled from the spec: set-semantics resource merge of
getRevisionWithNewObservation in utils.js (not among the sources).
A resource already present by exact string equality is not duplicated;
new ones are appended in input order after the existing entries. -/
def mergeResources (existing incoming : List String) : List String :=
  incoming.foldl (fun acc r => if r ∈ acc then acc else acc ++ [r]) existing

/-- Modelled from the spec: the freshly created primary user
observation, seeded with the new text and resources (section 4.2 of
the design; utils.js is not among the sources). -/
def createPrimaryObservation (t : String) (resources : List String) : Observation :=
  { id := PRIMARY_USER_OBSERVATION_ID
    observationType := "OBSERVATION_TYPE_TEXT_DESCRIPTION"
    observerType := OBSERVER_TYPE_USER
    text := t
    relevantResources := mergeResources [] resources
    timeIntervals := [] }

/-- Modelled from the spec: the in-place update of the primary user
observation: the new text is appended to the accumulated text
(newline-joined, the join policy suggested in section 9) and the
resources are merged with set semantics. -/
def appendToPrimaryObservation (t : String) (resources : List String)
    (o : Observation) : Observation :=
  { o with
    text := o.text ++ "\n" ++ t
    relevantResources := mergeResources o.relevantResources resources }

/-- Modelled from the spec: the observations mapping after the merge.
When a primary user observation exists its entry is updated in place;
otherwise a single new primary observation is appended. -/
def observationsWithNewObservation (m : ObsMap) (t : String)
    (resources : List String) : ObsMap :=
  if (m.lookup PRIMARY_USER_OBSERVATION_ID).isSome then
    m.map (fun kv =>
      if kv.1 = PRIMARY_USER_OBSERVATION_ID then
        (kv.1, appendToPrimaryObservation t resources kv.2)
      else kv)
  else
    m ++ [(PRIMARY_USER_OBSERVATION_ID, createPrimaryObservation t resources)]

/-- Modelled from the spec: getRevisionWithNewObservation of utils.js
(not among the sources; behaviour pinned by utils.test.js and section
4.2 of the design). A null prior snapshot yields the absence sentinel;
an absent observations mapping is treated as empty, so the result then
holds exactly one newly created observation. The input snapshot is not
mutated: a copy with the updated mapping is wrapped in the
revision-request envelope. -/
def getRevisionWithNewObservation (prior : Option Investigation)
    (t : String) (resources : List String) : Option RevisionPayload :=
  match prior with
  | none => none
  | some snap =>
      let m := snap.observations.getD []
      some ⟨{ snap with
              observations := some (observationsWithNewObservation m t resources) }⟩

/-! ## Typed failures (shared/errors.js call sites) -/

/-- The typed failure raised throughout the client: a message, an HTTP
style status code and a details payload, as in the ApiError call sites
of api.ts and tools.ts. -/
structure ApiError where
  message : String
  code : Nat
  details : String
deriving Repr, DecidableEq

/-- The addObservation flow of api.ts after the initial fetch,
parameterised by the fetched latest revision: the merge result is
checked for the absence sentinel before a revision request is built;
`Except.ok` carries the payload that would be submitted. -/
def addObservationModel (latest : Option Investigation) (observation : String)
    (resources : List String) : Except ApiError RevisionPayload :=
  match getRevisionWithNewObservation latest observation resources with
  | none =>
      Except.error ⟨"Failed to create new revision payload.", 500, "PAYLOAD_CREATION_FAILED"⟩
  | some payload => Except.ok payload

/-! ## PathResolver (InvestigationPath) -/

/-- Modelled from the spec: the Path value object of utils.js (not
among the sources), holding project, investigation and revision ids. -/
structure InvestigationPath where
  projectId : String
  investigationId : Option String
  revisionId : Option String
deriving Repr, DecidableEq

def InvestigationPath.getParent (p : InvestigationPath) : String :=
  "projects/" ++ p.projectId ++ "/locations/global"

/-- Modelled from the spec: the investigation-qualified name; the
source throws a MissingIdentifier error when the investigation id is
absent, embedded here as `none`. -/
def InvestigationPath.getInvestigationName (p : InvestigationPath) : Option String :=
  p.investigationId.map (fun i => p.getParent ++ "/investigations/" ++ i)

/-- Modelled from the spec: the revision-qualified name; the source
throws when either id is absent ("Revision ID are not set"), embedded
here as `none`. -/
def InvestigationPath.getRevisionName (p : InvestigationPath) : Option String :=
  match p.investigationId, p.revisionId with
  | some i, some r =>
      some (p.getParent ++ "/investigations/" ++ i ++ "/revisions/" ++ r)
  | _, _ => none

/-- The slash-separated segments of a name string. -/
def segmentsOf (s : String) : List String :=
  (s.data.splitOn '/').map (fun cs => String.mk cs)

/-- Modelled from the spec: InvestigationPath.fromInvestigationName of
utils.js (not among the sources; behaviour pinned by utils.test.js and
section 4.1 of the design). Purely syntactic positional parsing of
project-only, investigation-qualified and revision-qualified names,
requiring non-empty ids; malformed input yields `none`. -/
def InvestigationPath.fromInvestigationName (nm : String) : Option InvestigationPath :=
  match segmentsOf nm with
  | a :: p :: b :: c :: rest =>
      if a = "projects" ∧ b = "locations" ∧ c = "global" ∧ p ≠ "" then
        match rest with
        | [] => some ⟨p, none, none⟩
        | d :: i :: rest2 =>
            if d = "investigations" ∧ i ≠ "" then
              match rest2 with
              | [] => some ⟨p, some i, none⟩
              | [e, r] =>
                  if e = "revisions" ∧ r ≠ "" then some ⟨p, some i, some r⟩
                  else none
              | _ => none
            else none
        | _ => none
      else none
  | _ => none

/-! ## The polling loop of runInvestigation (api.ts) -/

/-- One status answer of the polled long-running operation
(opRes.data in api.ts): a done flag, an optional error payload and an
optional embedded result payload. -/
structure OperationStatus where
  done : Bool
  error : Option String
  response : Option String

/-- The parameters of a _getInvestigationRaw call issued by the flow. -/
structure GetParams where
  projectId : String
  investigationId : String
  revisionId : Option String
deriving Repr, DecidableEq

/-- How the polling while-loop of runInvestigation exits. -/
inductive LoopExit where
  | doneOk
  | doneErr (e : String)
  | exhausted
deriving Repr, DecidableEq

/-- The outcome of runInvestigation: on success the returned value is a
fresh fetch of the revision (never the embedded operation payload); an
operation error raises OPERATION_ERROR; exhaustion fetches the current
investigation state by investigation id for the details of the Timeout
error. -/
inductive RunResult where
  | returned (fetch : GetParams)
  | operationFailed (e : String)
  | timedOut (diagnosticFetch : GetParams)
deriving Repr, DecidableEq

/-- The polling while-loop of runInvestigation in api.ts, embedded with
explicit fuel (MAX_POLLING_ATTEMPTS minus the attempts already made).
Attempt n sleeps min(backoff, MAX_BACKOFF_SECONDS) + jitter n seconds
(jitter embeds Math.random()), queries the operation status once, and
doubles the backoff when not done. Returns the recorded delays, the
number of status queries issued, and how the loop exited. -/
def pollAux (status : Nat → OperationStatus) (jitter : Nat → ℚ) :
    Nat → Nat → Nat → List ℚ → List ℚ × Nat × LoopExit
  | 0, attempt, _backoff, acc => (acc, attempt, LoopExit.exhausted)
  | fuel + 1, attempt, backoff, acc =>
      let n := attempt + 1
      let delay : ℚ := ((min backoff MAX_BACKOFF_SECONDS : Nat) : ℚ) + jitter n
      let st := status n
      if st.done then
        match st.error with
        | some e => (acc ++ [delay], n, LoopExit.doneErr e)
        | none => (acc ++ [delay], n, LoopExit.doneOk)
      else
        pollAux status jitter fuel n (backoff * BACKOFF_FACTOR) (acc ++ [delay])

/-- runInvestigation of api.ts after the run request, parameterised by
the operation status oracle and the jitter sequence: polls with the
constants of constants.js, then on completion re-fetches the revision
by name, on error raises the operation error, and on exhaustion fetches
the investigation (no revision id) and raises Timeout. -/
def runInvestigationModel (projectId investigationId revisionId : String)
    (status : Nat → OperationStatus) (jitter : Nat → ℚ) :
    List ℚ × Nat × RunResult :=
  match pollAux status jitter MAX_POLLING_ATTEMPTS 0 INITIAL_BACKOFF_SECONDS [] with
  | (delays, queries, LoopExit.doneOk) =>
      (delays, queries, RunResult.returned ⟨projectId, investigationId, some revisionId⟩)
  | (delays, queries, LoopExit.doneErr e) =>
      (delays, queries, RunResult.operationFailed e)
  | (delays, queries, LoopExit.exhausted) =>
      (delays, queries, RunResult.timedOut ⟨projectId, investigationId, none⟩)

/-! ## The fetch_investigation tool handler (tools.ts) -/

/-- JS truthiness of an optional string parameter: absent and empty
strings are falsy. -/
def truthy : Option String → Bool
  | none => false
  | some s => !(s == "")

/-- The remote call the fetch flow proceeds to: get-by-name or list. -/
inductive FetchAction where
  | getById (projectId : String) (investigationId : Option String) (revisionId : Option String)
  | listAll (projectId : String) (filterExpr : Option String)
deriving Repr, DecidableEq

def revisionWithoutInvestigationError : ApiError :=
  ⟨"The revisionId parameter cannot be used without investigationId.", 400, "INVALID_ARGUMENT"⟩

def pageTokenWithInvestigationError : ApiError :=
  ⟨"The next_page_token parameter cannot be used with investigationId.", 400, "INVALID_ARGUMENT"⟩

/-- The fetch_investigation handler of tools.ts combined with the
branch of fetchInvestigation in api.ts: the two argument checks run
before any client call, then the flow proceeds to a get when an
investigation id is present and to a list otherwise. -/
def fetchInvestigationTool (projectId : String)
    (investigationId revisionId filterExpr pageToken : Option String) :
    Except ApiError FetchAction :=
  if truthy revisionId && !truthy investigationId then
    Except.error revisionWithoutInvestigationError
  else if truthy pageToken && truthy investigationId then
    Except.error pageTokenWithInvestigationError
  else if truthy investigationId then
    Except.ok (FetchAction.getById projectId investigationId revisionId)
  else
    Except.ok (FetchAction.listAll projectId filterExpr)

/-! ## Resource validation (validateGcpResources and the tool gate) -/

/-- A JS value that may appear in a resources array: the tests of
utils.test.js exercise strings, null, undefined, numbers and objects. -/
inductive ResourceEntry where
  | str (s : String)
  | nullVal
  | undefinedVal
  | numberVal (n : Int)
  | objectVal
deriving Repr, DecidableEq

/-- A string begins with the two characters //. -/
def beginsWithDoubleSlash (s : String) : Bool :=
  match s.data with
  | '/' :: '/' :: _ => true
  | _ => false

/-- Modelled from the spec: the per-entry test of validateGcpResources
in utils.js (not among the sources; pinned by utils.test.js): an entry
is valid exactly when it is a string beginning with //. -/
def isValidGcpResource : ResourceEntry → Bool
  | ResourceEntry.str s => beginsWithDoubleSlash s
  | _ => false

/-- Modelled from the spec: validateGcpResources of utils.js (not among
the sources; pinned by utils.test.js): returns the invalid entries, in
input order. -/
def validateGcpResources (resources : List ResourceEntry) : List ResourceEntry :=
  resources.filter (fun r => !(isValidGcpResource r))

/-- JS string interpolation of a resources-array entry. -/
def displayResource : ResourceEntry → String
  | ResourceEntry.str s => s
  | ResourceEntry.nullVal => "null"
  | ResourceEntry.undefinedVal => "undefined"
  | ResourceEntry.numberVal n => toString n
  | ResourceEntry.objectVal => "[object Object]"

/-- The quoted line the handler appends for one invalid resource. -/
def invalidResourceLine (r : ResourceEntry) : String :=
  "- \"" ++ displayResource r ++ "\"\n"

/-- The error message built by _validateGcpResourcesAndThrow in
tools.ts, starting from the header and appending one line per invalid
resource in a loop, then the format reminder. -/
def invalidResourcesMessage (invalid : List ResourceEntry) : String :=
  (invalid.foldl (fun acc r => acc ++ invalidResourceLine r)
      "Error: Invalid resource format for the following resources:\n") ++
    "Resources must be a fully-qualified GCP Resource URI, for example: //compute.googleapis.com/projects/my-gcp-project/zones/us-central1-a/instances/my-vm-instance"

/-- _validateGcpResourcesAndThrow of tools.ts: the validation gate run
by the create_investigation and add_observation handlers before any
client is constructed or remote call issued. -/
def validateGcpResourcesAndThrow (resources : List ResourceEntry) :
    Except ApiError Unit :=
  let invalid := validateGcpResources resources
  if invalid.length > 0 then
    Except.error ⟨invalidResourcesMessage invalid, 400, "INVALID_ARGUMENT"⟩
  else Except.ok ()

/-! ## ReportRenderer (InvestigationViewer) -/

/-- The primary user observation of a snapshot, if any. -/
def primaryObservation (inv : Investigation) : Option Observation :=
  (inv.observations.getD []).lookup PRIMARY_USER_OBSERVATION_ID

def issueHeaderText : String := "## Gemini Cloud Assist Investigation\n\n**Name**: "

/-- Modelled from the spec: the issue section of the viewer in
formatting_utils.js (not among the sources; shape pinned by its test
file and section 4.4 of the design): title line, investigation path,
start time with an N/A fallback, and the issue description text. -/
def formatIssueSection (inv : Investigation) : String :=
  issueHeaderText ++
    (inv.title ++ ("\n**Investigation Path**: " ++ (inv.name ++
      ("\n**Start Time**: " ++ (inv.startTime.getD "N/A" ++
      ("\n**Issue Description**:\n" ++
        (match primaryObservation inv with
         | some o => o.text
         | none => "")))))))

/-- Object.values of the observations mapping. -/
def observationValues (inv : Investigation) : List Observation :=
  (inv.observations.getD []).map Prod.snd

def isReservedObservationId (i : String) : Bool :=
  i == PRIMARY_USER_OBSERVATION_ID || i == PROJECT_OBSERVATION_ID

def userObservationsHeaderText : String := "## User Observations\n\n"

/-- Modelled from the spec: the user observations section renders the
user observations outside the two reserved ids and is the empty string
when there are none. -/
def formatUserObservationsSection (inv : Investigation) : String :=
  let obs := (observationValues inv).filter
    (fun o => o.observerType == OBSERVER_TYPE_USER && !(isReservedObservationId o.id))
  if obs.isEmpty then ""
  else
    userObservationsHeaderText ++
      String.intercalate "\n\n" (obs.map (fun o => "### " ++ o.id ++ "\n" ++ o.text))

def relevantObservationsHeaderText : String := "## Relevant Observations ("

/-- Modelled from the spec: the analysis observations section, headed
by the count of non-user observations. -/
def formatObservationsSection (inv : Investigation) : String :=
  let obs := (observationValues inv).filter
    (fun o => !(o.observerType == OBSERVER_TYPE_USER))
  relevantObservationsHeaderText ++
    (toString obs.length ++ (")\n\n" ++
      String.intercalate "\n\n" (obs.map (fun o => "### " ++ o.id ++ "\n" ++ o.text))))

def hypothesesHeaderText : String := "## Hypotheses ("

/-- Modelled from the spec: the hypotheses section, headed by the
count, with a literal fallback sentence when the collection is empty. -/
def formatHypothesesSection (inv : Investigation) : String :=
  hypothesesHeaderText ++
    (toString inv.hypotheses.length ++ (")\n\n" ++
      (if inv.hypotheses.isEmpty then "No hypotheses found."
       else
         String.intercalate "\n\n"
           (inv.hypotheses.map (fun h => "### " ++ h.title ++ "\n" ++ h.description)))))

def consoleLinkText : String :=
  "**Investigation Link**: https://console.cloud.google.com/troubleshooting/investigations/details/"

/-- Modelled from the spec: the console deep-link section, built from
the investigation id parsed back out of the snapshot name. -/
def formatInvestigationLink (inv : Investigation) : String :=
  consoleLinkText ++
    (match InvestigationPath.fromInvestigationName inv.name with
     | some p => p.investigationId.getD "N/A"
     | none => "N/A")

/-- Modelled from the spec: the section list of
InvestigationViewer.render: issue, user observations, then observations
and hypotheses only when they are shown, then the link; empty sections
are dropped. -/
def renderSections (inv : Investigation) (showObservationsAndHypotheses : Bool) :
    List String :=
  ([formatIssueSection inv, formatUserObservationsSection inv] ++
    (if showObservationsAndHypotheses then
      [formatObservationsSection inv, formatHypothesesSection inv]
     else []) ++
    [formatInvestigationLink inv]).filter (fun s => !(s == ""))

/-- Modelled from the spec: InvestigationViewer.render, joining the
sections with a blank line. -/
def render (inv : Investigation) (showObservationsAndHypotheses : Bool) : String :=
  String.intercalate "\n\n" (renderSections inv showObservationsAndHypotheses)

/-- The output built by the create_investigation and add_observation
handlers of tools.ts: the result snapshot rendered with observations
and hypotheses hidden. -/
def createToolOutput (result : Investigation) : String := render result false

/-! ## Concrete fixtures used by the witnesses -/

/-- A small concrete primary user observation. -/
def obsFix : Observation :=
  { id := PRIMARY_USER_OBSERVATION_ID
    observationType := "OBSERVATION_TYPE_TEXT_DESCRIPTION"
    observerType := OBSERVER_TYPE_USER
    text := "base issue text"
    relevantResources := ["//container.googleapis.com/projects/p/clusters/c"]
    timeIntervals := [] }

/-- A small concrete observations mapping with one primary entry. -/
def mFix : ObsMap := [(PRIMARY_USER_OBSERVATION_ID, obsFix)]

/-- A small concrete snapshot holding `mFix`. -/
def snapFix : Investigation :=
  { name := "projects/pr/locations/global/investigations/inv"
    title := "T"
    startTime := none
    executionState := "INVESTIGATION_EXECUTION_STATE_COMPLETED"
    observations := some mFix
    hypotheses := [] }

end GeminiCloudAssist

namespace GeminiCloudAssist

/-! ## Helper lemmas on the merge -/

/-- A pointwise map that keeps every observer type keeps the user
observation count. -/
theorem userObsCount_map_preserving (m : ObsMap)
    (f : String × Observation → String × Observation)
    (hf : ∀ kv, ((f kv).2).observerType = (kv.2).observerType) :
    userObsCount (m.map f) = userObsCount m := by
  induction m with
  | nil => rfl
  | cons kv tl ih =>
      unfold userObsCount at *
      simp only [List.map_cons, List.filter_cons, hf kv]
      cases h : kv.2.observerType == OBSERVER_TYPE_USER <;> simp [h, ih]

/-- Looking up the updated key after an in-place value update. -/
theorem lookup_map_update (m : ObsMap) (k : String) (g : Observation → Observation) :
    (m.map (fun kv => if kv.1 = k then (kv.1, g kv.2) else kv)).lookup k
      = (m.lookup k).map g := by
  induction m with
  | nil => rfl
  | cons kv tl ih =>
      rcases kv with ⟨a, b⟩
      simp only [List.map_cons]
      by_cases h : a = k
      · subst h
        rw [show (if ((a, b).1 = a) then ((a, b).1, g (a, b).2) else (a, b))
              = (a, g b) from if_pos rfl]
        simp [List.lookup_cons]
      · have hne : (k == a) = false := beq_eq_false_iff_ne.mpr fun hs => h hs.symm
        rw [show (if ((a, b).1 = k) then ((a, b).1, g (a, b).2) else (a, b))
              = (a, b) from if_neg h]
        simp [List.lookup_cons, hne, ih]

/-- One merge step on a snapshot that already holds a primary user
observation: the result wraps the same snapshot with the primary entry
updated in place, so the looked-up primary is the appended observation
and the user-observation count is unchanged. -/
theorem merge_step (snap : Investigation) (m : ObsMap) (obs : Observation)
    (t : String) (resources : List String)
    (hm : snap.observations = some m)
    (hobs : m.lookup PRIMARY_USER_OBSERVATION_ID = some obs) :
    ∃ m2 : ObsMap,
      getRevisionWithNewObservation (some snap) t resources =
        some ⟨{ snap with observations := some m2 }⟩ ∧
      m2.lookup PRIMARY_USER_OBSERVATION_ID =
        some (appendToPrimaryObservation t resources obs) ∧
      userObsCount m2 = userObsCount m := by
  have hbranch : observationsWithNewObservation m t resources =
      m.map (fun kv =>
        if kv.1 = PRIMARY_USER_OBSERVATION_ID then
          (kv.1, appendToPrimaryObservation t resources kv.2)
        else kv) := by
    unfold observationsWithNewObservation
    rw [hobs]
    rfl
  refine ⟨observationsWithNewObservation m t resources, ?_, ?_, ?_⟩
  · simp [getRevisionWithNewObservation, hm]
  · rw [hbranch, lookup_map_update, hobs]
    rfl
  · rw [hbranch]
    refine userObsCount_map_preserving m _ (fun kv => ?_)
    by_cases h : kv.1 = PRIMARY_USER_OBSERVATION_ID <;>
      simp [h, appendToPrimaryObservation]

/-- The appended part produced by the set-semantics resource merge:
the existing entries stay in front, the appended entries are exactly
the incoming ones not already present, in input order, and the result
stays duplicate free. -/
theorem mergeResources_spec (incoming : List String) :
    ∀ existing : List String, ∃ rest : List String,
      mergeResources existing incoming = existing ++ rest ∧
      rest.Sublist incoming ∧
      (∀ r, r ∈ rest ↔ (r ∈ incoming ∧ r ∉ existing)) ∧
      (existing.Nodup → (existing ++ rest).Nodup) := by
  induction incoming with
  | nil =>
      intro ex
      exact ⟨[], by simp [mergeResources], by simp, by simp, by simp⟩
  | cons r rs ih =>
      intro ex
      have step : mergeResources ex (r :: rs) =
          mergeResources (if r ∈ ex then ex else ex ++ [r]) rs := by
        simp only [mergeResources, List.foldl_cons]
      by_cases hr : r ∈ ex
      · obtain ⟨rest, h1, h2, h3, h4⟩ := ih ex
        refine ⟨rest, ?_, h2.cons r, ?_, h4⟩
        · rw [step, if_pos hr, h1]
        · intro x
          have := h3 x
          simp only [List.mem_cons] at *
          constructor
          · rintro hx
            obtain ⟨hx1, hx2⟩ := this.mp hx
            exact ⟨Or.inr hx1, hx2⟩
          · rintro ⟨hx1 | hx1, hx2⟩
            · exact absurd (hx1 ▸ hr) hx2
            · exact this.mpr ⟨hx1, hx2⟩
      · obtain ⟨rest, h1, h2, h3, h4⟩ := ih (ex ++ [r])
        refine ⟨r :: rest, ?_, h2.cons₂ r, ?_, ?_⟩
        · rw [step, if_neg hr, h1, List.append_assoc]
          rfl
        · intro x
          have hx := h3 x
          simp only [List.mem_cons, List.mem_append, List.not_mem_nil,
            or_false] at hx ⊢
          by_cases hxr : x = r
          · subst hxr
            simp [hr]
          · constructor
            · rintro (rfl | hmem)
              · exact absurd rfl hxr
              · obtain ⟨hx1, hx2⟩ := hx.mp hmem
                exact ⟨Or.inr hx1, fun hc => hx2 (Or.inl hc)⟩
            · rintro ⟨rfl | hx1, hx2⟩
              · exact absurd rfl hxr
              · exact Or.inr (hx.mpr ⟨hx1, fun hc => hc.elim hx2 hxr⟩)
        · intro hnd
          have hnd2 : (ex ++ [r]).Nodup := by
            simp [List.nodup_append, hnd, hr]
          have := h4 hnd2
          rw [List.append_assoc] at this
          simpa using this

/-! ## Claims on the merge (C1, C2, C3, C6) -/

/-- C1: for every prior snapshot that already contains a primary user
observation, getRevisionWithNewObservation never creates a second
primary-observation entry: the count of observations whose observer
type is user in the returned snapshot equals the count in the input
snapshot. -/
theorem C1_user_observation_count_preserved
    (snap : Investigation) (m : ObsMap) (obs : Observation)
    (t : String) (resources : List String)
    (hm : snap.observations = some m)
    (hobs : m.lookup PRIMARY_USER_OBSERVATION_ID = some obs)
    (huser : obs.observerType = OBSERVER_TYPE_USER) :
    ∃ payload : RevisionPayload,
      getRevisionWithNewObservation (some snap) t resources = some payload ∧
      ∃ m2 : ObsMap, payload.snapshot.observations = some m2 ∧
        userObsCount m2 = userObsCount m := by
  obtain ⟨m2, hrun, _hlook, hcount⟩ := merge_step snap m obs t resources hm hobs
  exact ⟨_, hrun, m2, rfl, hcount⟩

/-- C1 witness at a concrete snapshot with one primary observation. -/
theorem C1_user_observation_count_preserved_witness :
    ∃ payload : RevisionPayload,
      getRevisionWithNewObservation (some snapFix) "extra" ["//b"] = some payload ∧
      ∃ m2 : ObsMap, payload.snapshot.observations = some m2 ∧
        userObsCount m2 = userObsCount mFix :=
  C1_user_observation_count_preserved snapFix mFix obsFix "extra" ["//b"]
    rfl (by decide) rfl

/-- C2: applying the merge twice, first with text t1 and then with text
t2 on the returned snapshot, yields a primary-observation text holding
t1 and then t2 as substrings in that order, and leaves the
user-observation count unchanged. -/
theorem C2_sequential_merges_accumulate_text
    (snap : Investigation) (m : ObsMap) (obs : Observation)
    (t1 t2 : String) (rs1 rs2 : List String)
    (hm : snap.observations = some m)
    (hobs : m.lookup PRIMARY_USER_OBSERVATION_ID = some obs)
    (huser : obs.observerType = OBSERVER_TYPE_USER)
    (hne : t1 ≠ t2) :
    ∃ (p1 p2 : RevisionPayload) (m2 : ObsMap) (obs2 : Observation),
      getRevisionWithNewObservation (some snap) t1 rs1 = some p1 ∧
      getRevisionWithNewObservation (some p1.snapshot) t2 rs2 = some p2 ∧
      p2.snapshot.observations = some m2 ∧
      m2.lookup PRIMARY_USER_OBSERVATION_ID = some obs2 ∧
      (∃ a b c : List Char,
        obs2.text.data = a ++ t1.data ++ b ++ t2.data ++ c) ∧
      userObsCount m2 = userObsCount m := by
  obtain ⟨m1, hrun1, hlook1, hcount1⟩ := merge_step snap m obs t1 rs1 hm hobs
  obtain ⟨m2, hrun2, hlook2, hcount2⟩ :=
    merge_step { snap with observations := some m1 } m1
      (appendToPrimaryObservation t1 rs1 obs) t2 rs2 rfl hlook1
  refine ⟨_, _, m2, _, hrun1, hrun2, rfl, hlook2, ?_, hcount2.trans hcount1⟩
  refine ⟨obs.text.data ++ ['\n'], ['\n'], [], ?_⟩
  simp [appendToPrimaryObservation, String.data_append]

/-- C2 witness at a concrete snapshot and two distinct texts. -/
theorem C2_sequential_merges_accumulate_text_witness :
    ∃ (p1 p2 : RevisionPayload) (m2 : ObsMap) (obs2 : Observation),
      getRevisionWithNewObservation (some snapFix) "first new" ["//b"] = some p1 ∧
      getRevisionWithNewObservation (some p1.snapshot) "second new" [] = some p2 ∧
      p2.snapshot.observations = some m2 ∧
      m2.lookup PRIMARY_USER_OBSERVATION_ID = some obs2 ∧
      (∃ a b c : List Char,
        obs2.text.data = a ++ "first new".data ++ b ++ "second new".data ++ c) ∧
      userObsCount m2 = userObsCount mFix :=
  C2_sequential_merges_accumulate_text snapFix mFix obsFix
    "first new" "second new" ["//b"] [] rfl (by decide) rfl (by decide)

/-- C3: the merge folds the input resource list into the primary
observation with set semantics: a resource already present appears
exactly once, and resources not already present are appended after all
existing entries, in input order. -/
theorem C3_resources_merged_with_set_semantics
    (snap : Investigation) (m : ObsMap) (obs : Observation)
    (t : String) (rs : List String)
    (hm : snap.observations = some m)
    (hobs : m.lookup PRIMARY_USER_OBSERVATION_ID = some obs)
    (hnd : obs.relevantResources.Nodup) :
    ∃ (p : RevisionPayload) (m2 : ObsMap) (obs2 : Observation),
      getRevisionWithNewObservation (some snap) t rs = some p ∧
      p.snapshot.observations = some m2 ∧
      m2.lookup PRIMARY_USER_OBSERVATION_ID = some obs2 ∧
      ∃ appended : List String,
        obs2.relevantResources = obs.relevantResources ++ appended ∧
        appended.Sublist rs ∧
        (∀ r, r ∈ appended ↔ (r ∈ rs ∧ r ∉ obs.relevantResources)) ∧
        obs2.relevantResources.Nodup ∧
        (∀ r, r ∈ rs → r ∈ obs.relevantResources →
          obs2.relevantResources.count r = 1) := by
  obtain ⟨m2, hrun, hlook, _hcount⟩ := merge_step snap m obs t rs hm hobs
  obtain ⟨rest, h1, h2, h3, h4⟩ := mergeResources_spec rs obs.relevantResources
  have hres : (appendToPrimaryObservation t rs obs).relevantResources
      = obs.relevantResources ++ rest := by
    simp [appendToPrimaryObservation, h1]
  have hnodup : (appendToPrimaryObservation t rs obs).relevantResources.Nodup := by
    rw [hres]; exact h4 hnd
  refine ⟨_, m2, _, hrun, rfl, hlook, rest, hres, h2, h3, hnodup, ?_⟩
  intro r _hrs hrex
  refine List.count_eq_one_of_mem hnodup ?_
  rw [hres]
  exact List.mem_append_left _ hrex

/-- C3 witness: one duplicate and one genuinely new resource. -/
theorem C3_resources_merged_with_set_semantics_witness :
    ∃ (p : RevisionPayload) (m2 : ObsMap) (obs2 : Observation),
      getRevisionWithNewObservation (some snapFix) "t"
        ["//container.googleapis.com/projects/p/clusters/c", "//new"] = some p ∧
      p.snapshot.observations = some m2 ∧
      m2.lookup PRIMARY_USER_OBSERVATION_ID = some obs2 ∧
      ∃ appended : List String,
        obs2.relevantResources = obsFix.relevantResources ++ appended ∧
        appended.Sublist ["//container.googleapis.com/projects/p/clusters/c", "//new"] ∧
        (∀ r, r ∈ appended ↔
          (r ∈ ["//container.googleapis.com/projects/p/clusters/c", "//new"] ∧
            r ∉ obsFix.relevantResources)) ∧
        obs2.relevantResources.Nodup ∧
        (∀ r, r ∈ ["//container.googleapis.com/projects/p/clusters/c", "//new"] →
          r ∈ obsFix.relevantResources → obs2.relevantResources.count r = 1) :=
  C3_resources_merged_with_set_semantics snapFix mFix obsFix "t"
    ["//container.googleapis.com/projects/p/clusters/c", "//new"]
    rfl (by decide) (by decide)

/-- C6: a null prior snapshot makes the merge return the absence
sentinel without failing, and addObservation, upon receiving that
sentinel, fails with PAYLOAD_CREATION_FAILED instead of producing a
revision request. -/
theorem C6_null_snapshot_sentinel_payload_creation_failed
    (t : String) (resources : List String) :
    getRevisionWithNewObservation none t resources = none ∧
    addObservationModel none t resources =
      Except.error
        ⟨"Failed to create new revision payload.", 500, "PAYLOAD_CREATION_FAILED"⟩ :=
  ⟨rfl, rfl⟩

/-! ## Helper lemmas on the polling loop -/

theorem pollAux_zero (status : Nat → OperationStatus) (jitter : Nat → ℚ)
    (attempt backoff : Nat) (acc : List ℚ) :
    pollAux status jitter 0 attempt backoff acc = (acc, attempt, LoopExit.exhausted) := rfl

theorem pollAux_succ_done_ok (status : Nat → OperationStatus) (jitter : Nat → ℚ)
    (fuel attempt backoff : Nat) (acc : List ℚ)
    (h : (status (attempt + 1)).done = true)
    (he : (status (attempt + 1)).error = none) :
    pollAux status jitter (fuel + 1) attempt backoff acc =
      (acc ++ [((min backoff MAX_BACKOFF_SECONDS : Nat) : ℚ) + jitter (attempt + 1)],
        attempt + 1, LoopExit.doneOk) := by
  simp [pollAux, h, he]

theorem pollAux_succ_not_done (status : Nat → OperationStatus) (jitter : Nat → ℚ)
    (fuel attempt backoff : Nat) (acc : List ℚ)
    (h : (status (attempt + 1)).done = false) :
    pollAux status jitter (fuel + 1) attempt backoff acc =
      pollAux status jitter fuel (attempt + 1) (backoff * BACKOFF_FACTOR)
        (acc ++ [((min backoff MAX_BACKOFF_SECONDS : Nat) : ℚ) + jitter (attempt + 1)]) := by
  simp [pollAux, h]

/-- Exact description of the loop when the status oracle first reports
done, with no error, on query k + 1 after the current attempt count:
the loop issues exactly those queries and records one capped
exponential-backoff delay per query. -/
theorem pollAux_done_spec (status : Nat → OperationStatus) (jitter : Nat → ℚ) :
    ∀ (k fuel attempt backoff : Nat) (acc : List ℚ),
      k + 1 ≤ fuel →
      (∀ j, 1 ≤ j → j < k + 1 → (status (attempt + j)).done = false) →
      (status (attempt + (k + 1))).done = true →
      (status (attempt + (k + 1))).error = none →
      pollAux status jitter fuel attempt backoff acc =
        (acc ++ (List.range (k + 1)).map (fun j =>
            ((min (backoff * BACKOFF_FACTOR ^ j) MAX_BACKOFF_SECONDS : Nat) : ℚ)
              + jitter (attempt + j + 1)),
          attempt + (k + 1), LoopExit.doneOk) := by
  intro k
  induction k with
  | zero =>
      intro fuel attempt backoff acc hfuel _hnd hdone herr
      obtain ⟨f, rfl⟩ : ∃ f, fuel = f + 1 := ⟨fuel - 1, by omega⟩
      rw [pollAux_succ_done_ok status jitter f attempt backoff acc
        (by simpa using hdone) (by simpa using herr)]
      simp [List.range_succ]
  | succ k ih =>
      intro fuel attempt backoff acc hfuel hnd hdone herr
      obtain ⟨f, rfl⟩ : ∃ f, fuel = f + 1 := ⟨fuel - 1, by omega⟩
      rw [pollAux_succ_not_done status jitter f attempt backoff acc
        (hnd 1 le_rfl (by omega))]
      have hrec := ih f (attempt + 1) (backoff * BACKOFF_FACTOR)
        (acc ++ [((min backoff MAX_BACKOFF_SECONDS : Nat) : ℚ) + jitter (attempt + 1)])
        (by omega)
        (fun j hj1 hj2 => by
          have hh := hnd (j + 1) (by omega) (by omega)
          have e : attempt + (j + 1) = attempt + 1 + j := by omega
          rw [e] at hh
          exact hh)
        (by
          have e : attempt + (k + 1 + 1) = attempt + 1 + (k + 1) := by omega
          rw [← e]
          exact hdone)
        (by
          have e : attempt + (k + 1 + 1) = attempt + 1 + (k + 1) := by omega
          rw [← e]
          exact herr)
      rw [hrec]
      simp only [Prod.mk.injEq]
      refine ⟨?_, by omega, trivial⟩
      conv_rhs => rw [List.range_succ_eq_map, List.map_cons, List.map_map]
      rw [List.append_assoc, List.singleton_append]
      congr 1
      simp only [List.cons.injEq]
      constructor
      · simp
      · refine List.map_congr_left (fun j _hj => ?_)
        have e1 : backoff * BACKOFF_FACTOR * BACKOFF_FACTOR ^ j
            = backoff * BACKOFF_FACTOR ^ (j + 1) := by ring
        have e2 : attempt + 1 + j + 1 = attempt + (j + 1) + 1 := by omega
        simp only [Function.comp]
        rw [e1, e2]

/-- Exact description of the loop when the status oracle never reports
done: the fuel is consumed completely and the loop exits exhausted. -/
theorem pollAux_exhausted_spec (status : Nat → OperationStatus) (jitter : Nat → ℚ) :
    ∀ (fuel attempt backoff : Nat) (acc : List ℚ),
      (∀ j, 1 ≤ j → j ≤ fuel → (status (attempt + j)).done = false) →
      ∃ delays : List ℚ,
        pollAux status jitter fuel attempt backoff acc =
          (delays, attempt + fuel, LoopExit.exhausted) ∧
        delays.length = acc.length + fuel := by
  intro fuel
  induction fuel with
  | zero =>
      intro attempt backoff acc _h
      exact ⟨acc, by simp [pollAux_zero], by simp⟩
  | succ f ih =>
      intro attempt backoff acc h
      rw [pollAux_succ_not_done status jitter f attempt backoff acc
        (h 1 le_rfl (by omega))]
      obtain ⟨delays, hd, hl⟩ := ih (attempt + 1) (backoff * BACKOFF_FACTOR)
        (acc ++ [((min backoff MAX_BACKOFF_SECONDS : Nat) : ℚ) + jitter (attempt + 1)])
        (fun j hj1 hj2 => by
          have hh := h (j + 1) (by omega) (by omega)
          have e : attempt + (j + 1) = attempt + 1 + j := by omega
          rw [e] at hh
          exact hh)
      have e : attempt + 1 + f = attempt + (f + 1) := by omega
      rw [e] at hd
      refine ⟨delays, hd, ?_⟩
      simp only [List.length_append, List.length_cons, List.length_nil] at hl
      omega

/-! ## Claims on the polling loop (C4, C5) -/

/-- C4: when the operation reports not-done on queries 1..k-1 and done
with no error on query k (k at most 20), runInvestigation issues
exactly k status queries, each preceded by a delay of
min(2^(n-1), 32) seconds plus the jitter of the n-th attempt (in
[0,1)), and returns a fresh get of the revision, never the embedded
operation payload. -/
theorem C4_poll_until_done (projectId investigationId revisionId : String)
    (status : Nat → OperationStatus) (jitter : Nat → ℚ) (k : Nat)
    (hk1 : 1 ≤ k) (hk2 : k ≤ MAX_POLLING_ATTEMPTS)
    (hnd : ∀ j, 1 ≤ j → j < k → (status j).done = false)
    (hdone : (status k).done = true)
    (herr : (status k).error = none)
    (hjit : ∀ n, 0 ≤ jitter n ∧ jitter n < 1) :
    ∃ delays : List ℚ,
      runInvestigationModel projectId investigationId revisionId status jitter =
        (delays, k, RunResult.returned ⟨projectId, investigationId, some revisionId⟩) ∧
      delays = (List.range k).map (fun j =>
          ((min (2 ^ j) MAX_BACKOFF_SECONDS : Nat) : ℚ) + jitter (j + 1)) ∧
      delays.length = k ∧
      (∀ d ∈ delays, ∃ n, 1 ≤ n ∧ n ≤ k ∧
        d = ((min (2 ^ (n - 1)) MAX_BACKOFF_SECONDS : Nat) : ℚ) + jitter n ∧
        0 ≤ jitter n ∧ jitter n < 1) := by
  obtain ⟨k', rfl⟩ : ∃ k', k = k' + 1 := ⟨k - 1, by omega⟩
  have hp := pollAux_done_spec status jitter k' MAX_POLLING_ATTEMPTS 0
    INITIAL_BACKOFF_SECONDS [] hk2
    (fun j h1 h2 => by simpa using hnd j h1 h2)
    (by simpa using hdone) (by simpa using herr)
  simp only [Nat.zero_add, List.nil_append] at hp
  have hrun : runInvestigationModel projectId investigationId revisionId status jitter
      = ((List.range (k' + 1)).map (fun j =>
            ((min (INITIAL_BACKOFF_SECONDS * BACKOFF_FACTOR ^ j) MAX_BACKOFF_SECONDS : Nat) : ℚ)
              + jitter (j + 1)),
          k' + 1,
         RunResult.returned ⟨projectId, investigationId, some revisionId⟩) := by
    unfold runInvestigationModel
    rw [hp]
  have hdelays : (List.range (k' + 1)).map (fun j =>
        ((min (INITIAL_BACKOFF_SECONDS * BACKOFF_FACTOR ^ j) MAX_BACKOFF_SECONDS : Nat) : ℚ)
          + jitter (j + 1))
      = (List.range (k' + 1)).map (fun j =>
        ((min (2 ^ j) MAX_BACKOFF_SECONDS : Nat) : ℚ) + jitter (j + 1)) := by
    simp [INITIAL_BACKOFF_SECONDS, BACKOFF_FACTOR]
  refine ⟨_, hrun, hdelays, by simp, ?_⟩
  intro d hd
  obtain ⟨j, hj, rfl⟩ := List.mem_map.mp hd
  have hjr := List.mem_range.mp hj
  refine ⟨j + 1, by omega, by omega, ?_, (hjit (j + 1)).1, (hjit (j + 1)).2⟩
  simp [INITIAL_BACKOFF_SECONDS, BACKOFF_FACTOR]

/-- C4 witness: the operation completes on the second query. -/
theorem C4_poll_until_done_witness :
    ∃ delays : List ℚ,
      runInvestigationModel "p" "i" "r" (fun n => ⟨n == 2, none, none⟩) (fun _ => 0) =
        (delays, 2, RunResult.returned ⟨"p", "i", some "r"⟩) ∧
      delays = (List.range 2).map (fun j =>
          ((min (2 ^ j) MAX_BACKOFF_SECONDS : Nat) : ℚ) + (fun _ : Nat => (0 : ℚ)) (j + 1)) ∧
      delays.length = 2 ∧
      (∀ d ∈ delays, ∃ n, 1 ≤ n ∧ n ≤ 2 ∧
        d = ((min (2 ^ (n - 1)) MAX_BACKOFF_SECONDS : Nat) : ℚ) + (fun _ : Nat => (0 : ℚ)) n ∧
        0 ≤ (fun _ : Nat => (0 : ℚ)) n ∧ (fun _ : Nat => (0 : ℚ)) n < 1) :=
  C4_poll_until_done "p" "i" "r" (fun n => ⟨n == 2, none, none⟩) (fun _ => 0) 2
    (by norm_num) (by norm_num [MAX_POLLING_ATTEMPTS])
    (fun j h1 h2 => by interval_cases j; rfl)
    rfl rfl (fun n => ⟨le_refl 0, by norm_num⟩)

/-- C5: when the operation never reports done, runInvestigation issues
exactly MAX_POLLING_ATTEMPTS = 20 status queries and then times out,
fetching the current investigation state by investigation id (no
revision) for the error details; it never returns success. -/
theorem C5_timeout_after_max_attempts (projectId investigationId revisionId : String)
    (status : Nat → OperationStatus) (jitter : Nat → ℚ)
    (hnd : ∀ n, (status n).done = false) :
    ∃ delays : List ℚ,
      runInvestigationModel projectId investigationId revisionId status jitter =
        (delays, MAX_POLLING_ATTEMPTS,
          RunResult.timedOut ⟨projectId, investigationId, none⟩) ∧
      delays.length = MAX_POLLING_ATTEMPTS ∧
      ∀ fetch : GetParams,
        (runInvestigationModel projectId investigationId revisionId status jitter).2.2 ≠
          RunResult.returned fetch := by
  obtain ⟨delays, hd, hl⟩ := pollAux_exhausted_spec status jitter MAX_POLLING_ATTEMPTS 0
    INITIAL_BACKOFF_SECONDS [] (fun j _ _ => by simpa using hnd j)
  simp only [Nat.zero_add] at hd
  have hrun : runInvestigationModel projectId investigationId revisionId status jitter
      = (delays, MAX_POLLING_ATTEMPTS,
          RunResult.timedOut ⟨projectId, investigationId, none⟩) := by
    unfold runInvestigationModel
    rw [hd]
  refine ⟨delays, hrun, by simpa using hl, ?_⟩
  intro fetch
  rw [hrun]
  simp

/-- C5 witness: an operation that never completes. -/
theorem C5_timeout_after_max_attempts_witness :
    ∃ delays : List ℚ,
      runInvestigationModel "p" "i" "r" (fun _ => ⟨false, none, none⟩) (fun _ => 0) =
        (delays, MAX_POLLING_ATTEMPTS, RunResult.timedOut ⟨"p", "i", none⟩) ∧
      delays.length = MAX_POLLING_ATTEMPTS ∧
      ∀ fetch : GetParams,
        (runInvestigationModel "p" "i" "r" (fun _ => ⟨false, none, none⟩) (fun _ => 0)).2.2 ≠
          RunResult.returned fetch :=
  C5_timeout_after_max_attempts "p" "i" "r" (fun _ => ⟨false, none, none⟩)
    (fun _ => 0) (fun _n => rfl)

/-! ## Claim on the fetch argument checks (C8) -/

/-- C8: fetch fails with INVALID_ARGUMENT, before any remote request,
exactly when a revision id comes without an investigation id or a page
token comes with one; in every other combination it proceeds to a get
when an investigation id is present and to a list otherwise. -/
theorem C8_fetch_argument_validation (projectId : String)
    (investigationId revisionId filterExpr pageToken : Option String) :
    (truthy revisionId = true → truthy investigationId = false →
      fetchInvestigationTool projectId investigationId revisionId filterExpr pageToken
        = Except.error revisionWithoutInvestigationError) ∧
    (truthy pageToken = true → truthy investigationId = true →
      fetchInvestigationTool projectId investigationId revisionId filterExpr pageToken
        = Except.error pageTokenWithInvestigationError) ∧
    (truthy investigationId = true → truthy pageToken = false →
      fetchInvestigationTool projectId investigationId revisionId filterExpr pageToken
        = Except.ok (FetchAction.getById projectId investigationId revisionId)) ∧
    (truthy investigationId = false → truthy revisionId = false →
      fetchInvestigationTool projectId investigationId revisionId filterExpr pageToken
        = Except.ok (FetchAction.listAll projectId filterExpr)) ∧
    revisionWithoutInvestigationError.details = "INVALID_ARGUMENT" ∧
    pageTokenWithInvestigationError.details = "INVALID_ARGUMENT" := by
  refine ⟨?_, ?_, ?_, ?_, rfl, rfl⟩
  · intro h1 h2
    simp [fetchInvestigationTool, h1, h2]
  · intro h1 h2
    simp [fetchInvestigationTool, h1, h2]
  · intro h1 h2
    simp [fetchInvestigationTool, h1, h2]
  · intro h1 h2
    simp [fetchInvestigationTool, h1, h2]

/-- C8 witness: the four combinations at concrete arguments. -/
theorem C8_fetch_argument_validation_witness :
    fetchInvestigationTool "p" none (some "r") none none
      = Except.error revisionWithoutInvestigationError ∧
    fetchInvestigationTool "p" (some "i") none none (some "tok")
      = Except.error pageTokenWithInvestigationError ∧
    fetchInvestigationTool "p" (some "i") (some "r") none none
      = Except.ok (FetchAction.getById "p" (some "i") (some "r")) ∧
    fetchInvestigationTool "p" none none (some "f") none
      = Except.ok (FetchAction.listAll "p" (some "f")) :=
  ⟨(C8_fetch_argument_validation "p" none (some "r") none none).1 rfl rfl,
   (C8_fetch_argument_validation "p" (some "i") none none (some "tok")).2.1 rfl rfl,
   (C8_fetch_argument_validation "p" (some "i") (some "r") none none).2.2.1 rfl rfl,
   (C8_fetch_argument_validation "p" none none (some "f") none).2.2.2.1 rfl rfl⟩

/-! ## Helper lemmas and claim on resource validation (C10) -/

/-- Appending more text on the right keeps an infix of the
accumulator an infix of the final folded string. -/
theorem foldl_line_infix_mono (l : List ResourceEntry) :
    ∀ (init : String) (s : List Char), s <:+: init.data →
      s <:+: (l.foldl (fun acc x => acc ++ invalidResourceLine x) init).data := by
  induction l with
  | nil => intro init s h; simpa using h
  | cons x xs ih =>
      intro init s h
      rw [List.foldl_cons]
      refine ih (init ++ invalidResourceLine x) s ?_
      obtain ⟨u, v, huv⟩ := h
      exact ⟨u, v ++ (invalidResourceLine x).data, by
        rw [String.data_append, ← huv]
        simp [List.append_assoc]⟩

/-- Every listed entry contributes its own line to the folded text. -/
theorem line_infix_of_mem (l : List ResourceEntry) :
    ∀ (init : String) (r : ResourceEntry), r ∈ l →
      (invalidResourceLine r).data <:+:
        (l.foldl (fun acc x => acc ++ invalidResourceLine x) init).data := by
  induction l with
  | nil => intro _ r h; exact absurd h (List.not_mem_nil r)
  | cons x xs ih =>
      intro init r h
      rw [List.foldl_cons]
      rcases List.mem_cons.mp h with rfl | h2
      · refine foldl_line_infix_mono xs (init ++ invalidResourceLine r) _ ?_
        exact ⟨init.data, [], by simp [String.data_append]⟩
      · exact ih (init ++ invalidResourceLine x) r h2

/-- C10: validateGcpResources returns exactly the entries that are not
strings beginning with //, in input order (empty exactly when every
entry is a valid GCP URI), and the tool gate shared by
create_investigation and add_observation fails with INVALID_ARGUMENT,
listing those entries, exactly when some entry is invalid. -/
theorem C10_resource_validation (resources : List ResourceEntry) :
    (validateGcpResources resources).Sublist resources ∧
    (∀ r, r ∈ validateGcpResources resources ↔
      (r ∈ resources ∧ ∀ s, r = ResourceEntry.str s → beginsWithDoubleSlash s = false)) ∧
    (validateGcpResources resources = [] ↔
      ∀ r ∈ resources, ∃ s, r = ResourceEntry.str s ∧ beginsWithDoubleSlash s = true) ∧
    (validateGcpResources resources = [] →
      validateGcpResourcesAndThrow resources = Except.ok ()) ∧
    (validateGcpResources resources ≠ [] →
      validateGcpResourcesAndThrow resources =
        Except.error ⟨invalidResourcesMessage (validateGcpResources resources), 400,
          "INVALID_ARGUMENT"⟩) ∧
    (∀ r ∈ validateGcpResources resources,
      (invalidResourceLine r).data <:+:
        (invalidResourcesMessage (validateGcpResources resources)).data) := by
  refine ⟨List.filter_sublist resources, ?_, ?_, ?_, ?_, ?_⟩
  · intro r
    rw [validateGcpResources, List.mem_filter]
    cases r <;> simp [isValidGcpResource]
  · rw [validateGcpResources, List.filter_eq_nil_iff]
    constructor
    · intro h r hr
      have := h r hr
      cases r <;> simp_all [isValidGcpResource]
    · intro h r hr
      obtain ⟨s, rfl, hs⟩ := h r hr
      simp [isValidGcpResource, hs]
  · intro h
    simp [validateGcpResourcesAndThrow, h]
  · intro h
    have hlen : 0 < (validateGcpResources resources).length :=
      List.length_pos.mpr h
    simp only [validateGcpResourcesAndThrow]
    rw [if_pos hlen]
  · intro r hr
    obtain ⟨u, v, huv⟩ :=
      line_infix_of_mem (validateGcpResources resources)
        "Error: Invalid resource format for the following resources:\n" r hr
    refine ⟨u,
      v ++ "Resources must be a fully-qualified GCP Resource URI, for example: //compute.googleapis.com/projects/my-gcp-project/zones/us-central1-a/instances/my-vm-instance".data,
      ?_⟩
    rw [invalidResourcesMessage, String.data_append, ← huv]
    simp [List.append_assoc]

/-- C10 witness: one invalid entry triggers the error and one clean
list passes the gate. -/
theorem C10_resource_validation_witness :
    validateGcpResourcesAndThrow
        [ResourceEntry.str "//compute.googleapis.com/projects/x", ResourceEntry.str "bad"] =
      Except.error ⟨invalidResourcesMessage [ResourceEntry.str "bad"], 400, "INVALID_ARGUMENT"⟩ ∧
    validateGcpResourcesAndThrow [ResourceEntry.str "//compute.googleapis.com/projects/x"] =
      Except.ok () := by
  constructor
  · have h := (C10_resource_validation
      [ResourceEntry.str "//compute.googleapis.com/projects/x", ResourceEntry.str "bad"]).2.2.2.2.1
      (by decide)
    simpa using h
  · exact (C10_resource_validation
      [ResourceEntry.str "//compute.googleapis.com/projects/x"]).2.2.2.1 (by decide)

/-! ## Helper lemmas and claim on the path round trip (C7) -/

/-- Splitting on a slash peels one slash-free segment. -/
theorem splitOn_slash_step (xs rest : List Char) (h : ('/' : Char) ∉ xs) :
    (xs ++ '/' :: rest).splitOn '/' = xs :: rest.splitOn '/' := by
  simp only [List.splitOn]
  apply List.splitOnP_first
  · intro x hx
    simp only [beq_iff_eq]
    exact fun he => h (he ▸ hx)
  · simp

/-- Splitting a slash-free list on a slash keeps it whole. -/
theorem splitOn_slash_last (xs : List Char) (h : ('/' : Char) ∉ xs) :
    xs.splitOn '/' = [xs] := by
  simp only [List.splitOn]
  apply List.splitOnP_eq_single
  intro x hx
  simp only [beq_iff_eq]
  exact fun he => h (he ▸ hx)

/-- C7: for non-empty slash-free project, investigation and revision
ids, parsing the fully qualified revision name built from the path
recovers the identical path, so its revision name reproduces the same
string (round trip). -/
theorem C7_revision_name_round_trip (p i r : String)
    (hp : p ≠ "") (hi : i ≠ "") (hr : r ≠ "")
    (hps : ('/' : Char) ∉ p.data) (his : ('/' : Char) ∉ i.data)
    (hrs : ('/' : Char) ∉ r.data) :
    ∃ nm : String,
      (InvestigationPath.mk p (some i) (some r)).getRevisionName = some nm ∧
      InvestigationPath.fromInvestigationName nm
        = some (InvestigationPath.mk p (some i) (some r)) := by
  refine ⟨"projects/" ++ p ++ "/locations/global" ++ "/investigations/" ++ i
      ++ "/revisions/" ++ r, rfl, ?_⟩
  have e1 : "projects/".data = "projects".data ++ ['/'] := by decide
  have e2 : "/locations/global".data
      = '/' :: ("locations".data ++ '/' :: "global".data) := by decide
  have e3 : "/investigations/".data
      = '/' :: ("investigations".data ++ ['/']) := by decide
  have e4 : "/revisions/".data = '/' :: ("revisions".data ++ ['/']) := by decide
  have hdata : ("projects/" ++ p ++ "/locations/global" ++ "/investigations/" ++ i
        ++ "/revisions/" ++ r).data
      = "projects".data ++ '/' :: (p.data ++ '/' :: ("locations".data
          ++ '/' :: ("global".data ++ '/' :: ("investigations".data
          ++ '/' :: (i.data ++ '/' :: ("revisions".data ++ '/' :: r.data)))))) := by
    simp only [String.data_append, e1, e2, e3, e4, List.cons_append,
      List.append_assoc, List.singleton_append, List.nil_append]
  have hsplit : ("projects/" ++ p ++ "/locations/global" ++ "/investigations/" ++ i
        ++ "/revisions/" ++ r).data.splitOn '/'
      = ["projects".data, p.data, "locations".data, "global".data,
          "investigations".data, i.data, "revisions".data, r.data] := by
    rw [hdata, splitOn_slash_step _ _ (by decide), splitOn_slash_step _ _ hps,
      splitOn_slash_step _ _ (by decide), splitOn_slash_step _ _ (by decide),
      splitOn_slash_step _ _ (by decide), splitOn_slash_step _ _ his,
      splitOn_slash_step _ _ (by decide), splitOn_slash_last _ hrs]
  have hsegs : segmentsOf ("projects/" ++ p ++ "/locations/global"
        ++ "/investigations/" ++ i ++ "/revisions/" ++ r)
      = ["projects", p, "locations", "global", "investigations", i,
          "revisions", r] := by
    unfold segmentsOf
    rw [hsplit]
    rfl
  unfold InvestigationPath.fromInvestigationName
  rw [hsegs]
  simp [hp, hi, hr]

/-- C7 witness at the concrete ids of the test file. -/
theorem C7_revision_name_round_trip_witness :
    ∃ nm : String,
      (InvestigationPath.mk "project-789" (some "investigation-ghi")
          (some "revision-jkl")).getRevisionName = some nm ∧
      InvestigationPath.fromInvestigationName nm
        = some (InvestigationPath.mk "project-789" (some "investigation-ghi")
            (some "revision-jkl")) :=
  C7_revision_name_round_trip "project-789" "investigation-ghi" "revision-jkl"
    (by decide) (by decide) (by decide) (by decide) (by decide) (by decide)

/-! ## Helper lemmas and claim on the hidden-sections render (C9) -/

/-- A pattern that fails to match within the fixed head of a
concatenation is no prefix of the whole. -/
theorem not_prefix_of_append (pat a b : List Char)
    (h : ¬ (pat.take a.length) <+: a) : ¬ pat <+: (a ++ b) := by
  intro hp
  apply h
  have h1 : pat = (a ++ b).take pat.length := List.prefix_iff_eq_take.mp hp
  rw [h1, List.take_take]
  have hmin : min a.length pat.length ≤ a.length := min_le_left _ _
  rw [List.take_append_of_le_length hmin]
  exact List.take_prefix _ _

/-- Specialisation to a section of shape header ++ tail. -/
theorem not_prefix_section (pat : List Char) (hdr tail : String)
    (h : ¬ (pat.take hdr.data.length) <+: hdr.data) :
    ¬ pat <+: (hdr ++ tail).data := by
  rw [String.data_append]
  exact not_prefix_of_append pat hdr.data tail.data h

/-- A string with a non-empty head part is not the empty string. -/
theorem append_ne_empty_of_left (hdr tail : String) (h : hdr.data ≠ []) :
    hdr ++ tail ≠ "" := by
  intro he
  apply h
  have hd : (hdr ++ tail).data = ("" : String).data := congrArg String.data he
  rw [String.data_append] at hd
  exact (List.append_eq_nil.mp hd).1

/-- C9: the output returned after create (and add-observation) renders
with observations and hypotheses hidden: the section list still starts
with the issue section and still holds the link section, no rendered
section is the relevant-observations or hypotheses section (none even
starts with those headers), and the handler output is exactly these
sections joined by blank lines. -/
theorem C9_create_output_hides_observations_and_hypotheses (inv : Investigation) :
    (∃ rest, renderSections inv false = formatIssueSection inv :: rest) ∧
    formatInvestigationLink inv ∈ renderSections inv false ∧
    (∀ s ∈ renderSections inv false,
      ¬ ("## Relevant Observations".data <+: s.data) ∧
      ¬ ("## Hypotheses".data <+: s.data)) ∧
    formatObservationsSection inv ∉ renderSections inv false ∧
    formatHypothesesSection inv ∉ renderSections inv false ∧
    createToolOutput inv = String.intercalate "\n\n" (renderSections inv false) := by
  have hbase : renderSections inv false
      = [formatIssueSection inv, formatUserObservationsSection inv,
          formatInvestigationLink inv].filter (fun s => !(s == "")) := rfl
  have hissne : formatIssueSection inv ≠ "" := by
    simp only [formatIssueSection]
    exact append_ne_empty_of_left _ _ (by decide)
  have hlinkne : formatInvestigationLink inv ≠ "" := by
    simp only [formatInvestigationLink]
    exact append_ne_empty_of_left _ _ (by decide)
  have hall : ∀ s ∈ renderSections inv false,
      ¬ ("## Relevant Observations".data <+: s.data) ∧
      ¬ ("## Hypotheses".data <+: s.data) := by
    intro s hs
    rw [hbase, List.mem_filter] at hs
    obtain ⟨hmem, hguard⟩ := hs
    have hne : s ≠ "" := by
      intro he
      rw [he] at hguard
      simp at hguard
    simp only [List.mem_cons, List.not_mem_nil, or_false] at hmem
    rcases hmem with rfl | rfl | rfl
    · constructor
      · simp only [formatIssueSection]
        exact not_prefix_section _ _ _ (by decide)
      · simp only [formatIssueSection]
        exact not_prefix_section _ _ _ (by decide)
    · by_cases hemp : ((observationValues inv).filter
          (fun o => o.observerType == OBSERVER_TYPE_USER
            && !(isReservedObservationId o.id))).isEmpty
      · exact absurd (by simp [formatUserObservationsSection, hemp]) hne
      · have hform : formatUserObservationsSection inv
            = userObservationsHeaderText ++
              String.intercalate "\n\n"
                (((observationValues inv).filter
                  (fun o => o.observerType == OBSERVER_TYPE_USER
                    && !(isReservedObservationId o.id))).map
                  (fun o => "### " ++ o.id ++ "\n" ++ o.text)) := by
          simp [formatUserObservationsSection, hemp]
        constructor
        · rw [hform]
          exact not_prefix_section _ _ _ (by decide)
        · rw [hform]
          exact not_prefix_section _ _ _ (by decide)
    · constructor
      · simp only [formatInvestigationLink]
        exact not_prefix_section _ _ _ (by decide)
      · simp only [formatInvestigationLink]
        exact not_prefix_section _ _ _ (by decide)
  refine ⟨?_, ?_, hall, ?_, ?_, rfl⟩
  · refine ⟨[formatUserObservationsSection inv,
      formatInvestigationLink inv].filter (fun s => !(s == "")), ?_⟩
    rw [hbase]
    simp [List.filter_cons, hissne]
  · rw [hbase]
    rw [List.mem_filter]
    refine ⟨by simp, by simp [hlinkne]⟩
  · intro hmem
    apply (hall _ hmem).1
    simp only [formatObservationsSection]
    rw [String.data_append]
    exact List.IsPrefix.trans (by decide) (List.prefix_append _ _)
  · intro hmem
    apply (hall _ hmem).2
    simp only [formatHypothesesSection]
    rw [String.data_append]
    exact List.IsPrefix.trans (by decide) (List.prefix_append _ _)

/-- C9 witness at a concrete snapshot. -/
theorem C9_create_output_hides_observations_and_hypotheses_witness :
    formatInvestigationLink snapFix ∈ renderSections snapFix false ∧
    ¬ ("## Relevant Observations".data <+: (formatIssueSection snapFix).data) ∧
    formatHypothesesSection snapFix ∉ renderSections snapFix false := by
  obtain ⟨⟨rest, hrest⟩, h2, h3, _h4, h5, _h6⟩ :=
    C9_create_output_hides_observations_and_hypotheses snapFix
  refine ⟨h2, ?_, h5⟩
  refine (h3 _ ?_).1
  rw [hrest]
  exact List.mem_cons_self _ _

end GeminiCloudAssist
